import Mathlib

/-!
Shallow embedding of the lpshipit repository (lpshipit.py, lpmpmessage.py,
picker.py) used to check the natural-language specification against the code.

Conventions of the embedding:
- Launchpad merge-proposal records are modelled by the `RawMP` structure,
  keeping exactly the attributes the scripts read.  Attributes whose Python
  value may be `None` but is only ever tested for truthiness together with
  the empty string (description, commit_message) are modelled as `String`,
  with `""` standing for both falsy values, since the two are observationally
  identical in this code.
- Python `sorted` is the stable sort with respect to the comparison key.
  A stable sort for a total preorder is extensionally unique, so it is
  embedded as `List.insertionSort`, which is stable and kernel-computable.
- Side effects (git commands, printing, exiting) are reified as data so the
  orchestration logic becomes a pure function from inputs to effect lists.
-/

/-- A vote on a merge proposal: `vote.reviewer.name`, `vote.is_pending`,
and `vote.comment.vote` (only read when the vote is not pending). -/
structure Vote where
  reviewer_name : String
  is_pending : Bool
  comment_vote : String
deriving DecidableEq

/-- The git repository pair of a git-backed merge proposal:
`mp.source_git_repository.display_name`, `mp.target_git_repository.display_name`,
`mp.source_git_path`, `mp.target_git_path`. -/
structure GitRepoInfo where
  source_repo_display_name : String
  target_repo_display_name : String
  source_git_path : String
  target_git_path : String
deriving DecidableEq

/-- A raw Launchpad merge proposal, restricted to the attributes the scripts
read.  `git = none` models a proposal without a truthy
`source_git_repository` attribute; the two `*_branch_display_name` fields
model `mp.source_branch.display_name` and `mp.target_branch.display_name`,
read only for non-git proposals.  `date_created` is an abstract timestamp,
modelled as a natural number. -/
structure RawMP where
  registrant_name : String
  description : String
  commit_message : String
  votes : List Vote
  web_link : String
  date_created : Nat
  git : Option GitRepoInfo
  source_branch_display_name : String
  target_branch_display_name : String
deriving DecidableEq

/-- The normalized summary dictionary built by the summarizers. -/
structure MPSummary where
  author : String
  commit_message : String
  short_commit_message : String
  reviewers : List String
  approval_count : Nat
  web : String
  target_branch : String
  source_branch : String
  target_repo : String
  source_repo : String
  date_created : Nat
  summary : String
deriving DecidableEq

/-- lpshipit.py lines 44-47: strip a leading refs/heads/ from a git ref.
Python strings are sequences of code points, so the check and the slice are
performed on the char list of the string. -/
def _format_git_branch_name (branch_name : String) : String :=
  if "refs/heads/".data.isPrefixOf branch_name.data then
    String.mk (branch_name.data.drop "refs/heads/".data.length)
  else
    branch_name

/-- The vote loop shared by both summarizers (lpshipit.py lines 54-60,
lpmpmessage.py lines 50-56): first component is `review_vote_parts` (names of
non-pending voters, in input order), second is `approval_count`. -/
def collect_votes : List Vote → List String × Nat
  | [] => ([], 0)
  | v :: rest =>
    if v.is_pending then
      collect_votes rest
    else
      (v.reviewer_name :: (collect_votes rest).1,
       if v.comment_vote == "Approve" then (collect_votes rest).2 + 1
       else (collect_votes rest).2)

/-- First line of a string; models Python commit_message.splitlines()[0] for
a non-empty string (line terminators restricted to newline and carriage
return, the only ones relevant here). -/
def first_line (s : String) : String :=
  s.takeWhile (fun c => decide (c ≠ '\n' ∧ c ≠ '\r'))

/-- Lexicographic comparison of char lists by code point, the comparison
Python sorted performs on strings. -/
def chars_le : List Char → List Char → Bool
  | [], _ => true
  | _ :: _, [] => false
  | c :: cs, d :: ds =>
    if c < d then true
    else if d < c then false
    else chars_le cs ds

/-- Lexicographic order on strings, as used by Python sorted on the reviewer
names. -/
def string_le (a b : String) : Prop := chars_le a.data b.data = true

instance : DecidableRel string_le := fun a b => instDecidableEqBool (chars_le a.data b.data) true

theorem chars_le_total : ∀ a b : List Char, chars_le a b = true ∨ chars_le b a = true
  | [], _ => Or.inl rfl
  | _ :: _, [] => Or.inr rfl
  | c :: cs, d :: ds => by
    rcases lt_trichotomy c d with hcd | hcd | hcd
    · left
      simp [chars_le, hcd]
    · subst hcd
      rcases chars_le_total cs ds with h | h
      · left
        simp [chars_le, lt_irrefl, h]
      · right
        simp [chars_le, lt_irrefl, h]
    · right
      simp [chars_le, hcd]

theorem chars_le_trans :
    ∀ a b c : List Char, chars_le a b = true → chars_le b c = true → chars_le a c = true
  | [], _, _ => fun _ _ => rfl
  | a :: as, [], _ => fun h _ => by simp [chars_le] at h
  | _ :: _, _ :: _, [] => fun _ h => by simp [chars_le] at h
  | a :: as, b :: bs, c :: cs => fun hab hbc => by
    rcases lt_trichotomy a b with h1 | h1 | h1
    · rcases lt_trichotomy b c with h2 | h2 | h2
      · simp [chars_le, lt_trans h1 h2]
      · subst h2
        simp [chars_le, h1]
      · exfalso
        simp [chars_le, h2, asymm h2] at hbc
    · subst h1
      rcases lt_trichotomy a c with h2 | h2 | h2
      · simp [chars_le, h2]
      · subst h2
        simp only [chars_le, if_neg (lt_irrefl a)] at hab hbc ⊢
        exact chars_le_trans as bs cs hab hbc
      · exfalso
        simp [chars_le, h2, asymm h2] at hbc
    · exfalso
      simp [chars_le, h1, asymm h1] at hab

instance : IsTotal String string_le := ⟨fun a b => chars_le_total a.data b.data⟩

instance : IsTrans String string_le :=
  ⟨fun a b c hab hbc => chars_le_trans a.data b.data c.data hab hbc⟩

/-- The sort key relation of `sorted(..., key=lambda k: k[date_created],
reverse=True)`: descending by creation date. -/
def date_desc (a b : MPSummary) : Prop := b.date_created ≤ a.date_created

instance : DecidableRel date_desc :=
  fun a b => Nat.decLe b.date_created a.date_created

instance : IsTotal MPSummary date_desc :=
  ⟨fun a b => Nat.le_total b.date_created a.date_created⟩

instance : IsTrans MPSummary date_desc := ⟨fun _ _ _ h1 h2 => Nat.le_trans h2 h1⟩

/-- The summary record built by lpshipit.summarize_mps (lines 53-96) for one
git-backed proposal. -/
def summarize_git_mp (mp : RawMP) (g : GitRepoInfo) : MPSummary :=
  let review_vote_parts := (collect_votes mp.votes).1
  let approval_count := (collect_votes mp.votes).2
  let source_branch := _format_git_branch_name g.source_git_path
  let target_branch := _format_git_branch_name g.target_git_path
  let description := mp.description
  let commit_message := if mp.commit_message == "" then description
                        else mp.commit_message
  let short_commit_message := if commit_message == "" then ""
                              else first_line commit_message
  let reviewers := List.insertionSort string_le review_vote_parts
  { author := mp.registrant_name
    commit_message := commit_message
    short_commit_message := short_commit_message
    reviewers := reviewers
    approval_count := approval_count
    web := mp.web_link
    target_branch := target_branch
    source_branch := source_branch
    target_repo := g.target_repo_display_name
    source_repo := g.source_repo_display_name
    date_created := mp.date_created
    summary := g.source_repo_display_name ++ "/" ++ source_branch ++
      "\n->" ++ g.target_repo_display_name ++ "/" ++ target_branch ++
      "\n    " ++ short_commit_message ++
      "\n    " ++ toString approval_count ++ " approvals (" ++
      String.intercalate "," reviewers ++ ")" ++
      "\n    " ++ toString mp.date_created ++ " - " ++ mp.web_link }

/-- lpshipit.summarize_mps: a proposal without a truthy
source_git_repository contributes no summary at all. -/
def summarize_mp (mp : RawMP) : Option MPSummary :=
  match mp.git with
  | none => none
  | some g => some (summarize_git_mp mp g)

/-- The list `mp_content` accumulated by lpshipit.summarize_mps before
sorting (lines 51-98). -/
def mp_content (mps : List RawMP) : List MPSummary :=
  mps.filterMap summarize_mp

/-- lpshipit.summarize_mps (lines 50-103): build the summaries, then
`sorted(mp_content, key=lambda k: k[date_created], reverse=True)`, the
stable descending sort by creation date. -/
def summarize_mps (mps : List RawMP) : List MPSummary :=
  List.insertionSort date_desc (mp_content mps)

/-- The summary record built by lpmpmessage.summarize_all_mps (lines 49-98)
for one proposal: unlike lpshipit.summarize_mps it also handles non-git
proposals, the repo fields carry a trailing slash in the git case and are
empty in the non-git case, and the branch fields of a non-git proposal are
the branch display names. -/
def summarize_all_mp (mp : RawMP) : MPSummary :=
  let review_vote_parts := (collect_votes mp.votes).1
  let approval_count := (collect_votes mp.votes).2
  let description := mp.description
  let commit_message := if mp.commit_message == "" then description
                        else mp.commit_message
  let short_commit_message := if commit_message == "" then ""
                              else first_line commit_message
  let source_repo := match mp.git with
    | some g => g.source_repo_display_name ++ "/"
    | none => ""
  let target_repo := match mp.git with
    | some g => g.target_repo_display_name ++ "/"
    | none => ""
  let source_branch := match mp.git with
    | some g => _format_git_branch_name g.source_git_path
    | none => mp.source_branch_display_name
  let target_branch := match mp.git with
    | some g => _format_git_branch_name g.target_git_path
    | none => mp.target_branch_display_name
  let reviewers := List.insertionSort string_le review_vote_parts
  { author := mp.registrant_name
    commit_message := commit_message
    short_commit_message := short_commit_message
    reviewers := reviewers
    approval_count := approval_count
    web := mp.web_link
    target_branch := target_branch
    source_branch := source_branch
    target_repo := target_repo
    source_repo := source_repo
    date_created := mp.date_created
    summary := source_repo ++ source_branch ++
      "\n->" ++ target_repo ++ target_branch ++
      "\n    " ++ short_commit_message ++
      "\n    " ++ toString approval_count ++ " approvals (" ++
      String.intercalate "," reviewers ++ ")" ++
      "\n    " ++ toString mp.date_created ++ " - " ++ mp.web_link }

/-- lpmpmessage.summarize_all_mps (lines 47-105). -/
def summarize_all_mps (mps : List RawMP) : List MPSummary :=
  List.insertionSort date_desc (mps.map summarize_all_mp)

/-- lpshipit.build_commit_msg (lines 106-111). -/
def build_commit_msg (author reviewers source_branch target_branch
    commit_message mp_web_link : String) : String :=
  "Merge " ++ source_branch ++ " into " ++ target_branch ++
    " [a=" ++ author ++ "] [r=" ++ reviewers ++ "]" ++
    "\n\n" ++ commit_message ++ "\n\nMP: " ++ mp_web_link

/-- One git side effect performed by the merge flow in
lpshipit.target_branch_chosen: the checkout of a branch
(`repo.branches[target_branch].checkout()`) or the merge command
(`git merge --no-ff source_branch -m commit_message`).  No push or
fast-forward command exists anywhere in the flow. -/
inductive GitEffect where
  | checkout (branch : String)
  | merge_no_ff (source_branch : String) (message : String)
deriving DecidableEq

/-- Outcome of lpshipit.target_branch_chosen: either the merge is performed
(with its git effects, in order, and the displayed merge summary) or the
same-branch error screen is shown and nothing is executed. -/
inductive MergeOutcome where
  | merged (effects : List GitEffect) (merge_summary : String)
  | rejected (error_message : String)
deriving DecidableEq

/-- The error text of the same-branch screen (lpshipit.py lines 213-215). -/
def same_branch_error : String :=
  "Source branch and target branch can not be the same. \n\nPress Q to exit."

/-- lpshipit.target_branch_chosen (lines 157-218), with the urwid rendering
abstracted away: the branch on `target_branch != source_branch`, the commit
message construction, and the checkout-then-merge command sequence. -/
def target_branch_chosen (chosen_mp : MPSummary)
    (source_branch target_branch : String) : MergeOutcome :=
  if target_branch ≠ source_branch then
    let commit_message := build_commit_msg chosen_mp.author
      (String.intercalate "," chosen_mp.reviewers)
      source_branch target_branch chosen_mp.commit_message chosen_mp.web
    MergeOutcome.merged
      [GitEffect.checkout target_branch,
       GitEffect.merge_no_ff source_branch commit_message]
      (source_branch ++ " has been merged in to " ++ target_branch ++
        " \nChanges have _NOT_ been pushed")
  else
    MergeOutcome.rejected same_branch_error

/-- The git commands an outcome performs: none on rejection. -/
def outcome_effects : MergeOutcome → List GitEffect
  | MergeOutcome.merged effects _ => effects
  | MergeOutcome.rejected _ => []

/-- One iteration of the focus-picking loop body of the branch pickers
(lpshipit.py lines 243-249 for the target picker), at the already
incremented focus_counter k: a branch equal to the proposal branch sets the
focus unconditionally; a branch equal to the checked-out branch sets it
only when it is still unset. -/
def focus_step (mp_branch : String) (checkedout_branch : Option String)
    (local_branch : String) (k : Nat) (focus : Option Nat) : Option Nat :=
  let focus := if local_branch == mp_branch then some k else focus
  let checked_match := match checkedout_branch with
    | some c => local_branch == c
    | none => false
  if checked_match && focus.isNone then some k else focus

/-- The focus-picking loop of the branch pickers (lpshipit.py lines 231-249
for the target picker): widgets 0 and 1 are the header text and divider, the
branch buttons start at widget index 2 (`focus_counter` starts at 1 and is
incremented before each button). -/
def branch_focus_loop (mp_branch : String) (checkedout_branch : Option String) :
    List String → Nat → Option Nat → Option Nat
  | [], _, focus => focus
  | local_branch :: rest, focus_counter, focus =>
    branch_focus_loop mp_branch checkedout_branch rest (focus_counter + 1)
      (focus_step mp_branch checkedout_branch local_branch (focus_counter + 1) focus)

/-- The widget index the target-branch picker focuses after being built
(lpshipit.py lines 225-255): the loop result when it is set (it is then
at least 2, hence truthy in the Python `if focus:` guard), and otherwise
the list default of 0. -/
def target_branch_default_focus (local_branches : List String)
    (mp_target_branch : String) (checkedout_branch : Option String) : Nat :=
  match branch_focus_loop mp_target_branch checkedout_branch local_branches 1 none with
  | some n => n
  | none => 0

/-- The message printed when no summaries were built (lpshipit.py lines
348-349, lpmpmessage.py lines 215-216). -/
def no_mps_message : String :=
  "You have no Merge Proposals in either \x27Needs review\x27 or \x27Approved\x27 state"

/-- Observable outcome of the top-level dispatch on the fetched proposals:
either the interactive flow is entered with the built summaries, or the
script prints the no-proposals message and the process finishes with the
given exit code, having performed the given git effects (the no-proposal
branch of both scripts only prints, so the code is the 0 of a normal
return and the effect list is empty). -/
inductive FlowOutcome where
  | enter_interactive (summaries : List MPSummary)
  | exit_no_mps (printed : String) (exit_code : Nat) (effects : List GitEffect)
deriving DecidableEq

/-- lpshipit.lpshipit after the fetch (lines 129-349): `if mp_summaries:`
enters the interactive flow, `else` prints the explanation and returns
(the click entry point then exits with status 0). -/
def lpshipit_dispatch (mps : List RawMP) : FlowOutcome :=
  let mp_summaries := summarize_mps mps
  if ¬ mp_summaries.isEmpty then
    FlowOutcome.enter_interactive mp_summaries
  else
    FlowOutcome.exit_no_mps no_mps_message 0 []

/-- lpmpmessage.lpmpmessage after the fetch (lines 177-216), same shape as
lpshipit_dispatch but over summarize_all_mps. -/
def lpmpmessage_dispatch (mps : List RawMP) : FlowOutcome :=
  let mp_summaries := summarize_all_mps mps
  if ¬ mp_summaries.isEmpty then
    FlowOutcome.enter_interactive mp_summaries
  else
    FlowOutcome.exit_no_mps no_mps_message 0 []

/-- The state a successfully constructed picker starts in (picker.py lines
7-22).  The index is an integer because Python performs no lower-bound check
on default_index. -/
structure PickerState where
  options : List String
  title : Option String
  indicator : String
  index : Int
  line_count : Nat
deriving DecidableEq

/-- Picker.__init__ (picker.py lines 7-22): raise on an empty option list,
then raise when `default_index >= len(options)`, otherwise construct the
state with the focus index equal to default_index. -/
def picker_init (options : List String) (title : Option String)
    (indicator : String) (default_index : Int) (line_count : Nat) :
    Except String PickerState :=
  if options.length == 0 then
    Except.error "options should not be an empty list"
  else if default_index ≥ (options.length : Int) then
    Except.error "default_index should be less than the length of options"
  else
    Except.ok { options := options
                title := title
                indicator := indicator
                index := default_index
                line_count := line_count }

/-- Picker construction with all defaulted arguments of the Python signature
(title=None, indicator=*, default_index=0, line_count=1). -/
def picker_init_default (options : List String) : Except String PickerState :=
  picker_init options none "*" 0 1

/-- Concrete git repository pair used by the witnesses. -/
def w_git : GitRepoInfo :=
  { source_repo_display_name := "repo"
    target_repo_display_name := "repo"
    source_git_path := "refs/heads/feat"
    target_git_path := "refs/heads/main" }

/-- Concrete git-backed proposal used by the witnesses: two non-pending
votes cast out of lexicographic order, only one of them an approval, plus
one pending vote. -/
def w_mp : RawMP :=
  { registrant_name := "alice"
    description := "fix thing"
    commit_message := ""
    votes := [⟨"carol", false, "Needs Fixing"⟩, ⟨"bob", false, "Approve"⟩,
              ⟨"dave", true, ""⟩]
    web_link := "http://x/1"
    date_created := 5
    git := some w_git
    source_branch_display_name := ""
    target_branch_display_name := "" }

/-- Second concrete git-backed proposal with the same creation date as
`w_mp`, used to witness stability of the summary sort. -/
def w_mp2 : RawMP :=
  { w_mp with registrant_name := "erin", web_link := "http://x/2" }

/-- Concrete non-git proposal used by the witnesses. -/
def w_mp_nogit : RawMP :=
  { w_mp with git := none
              source_branch_display_name := "trunk-feat"
              target_branch_display_name := "trunk" }

/-! Helper lemmas about the vote loop and the focus loop. -/

theorem collect_votes_fst (votes : List Vote) :
    (collect_votes votes).1 =
      (votes.filter (fun v => !v.is_pending)).map Vote.reviewer_name := by
  induction votes with
  | nil => rfl
  | cons v rest ih =>
    cases hp : v.is_pending <;>
      simp [collect_votes, hp, ih, List.filter_cons]

theorem collect_votes_snd (votes : List Vote) :
    (collect_votes votes).2 =
      (votes.filter (fun v => !v.is_pending && (v.comment_vote == "Approve"))).length := by
  induction votes with
  | nil => rfl
  | cons v rest ih =>
    cases hp : v.is_pending
    · cases ha : v.comment_vote == "Approve" <;>
        simp [collect_votes, hp, ha, ih, List.filter_cons]
    · simp [collect_votes, hp, ih, List.filter_cons]

theorem focus_step_eq (co : Option String) (b : String) (k : Nat) (f : Option Nat) :
    focus_step b co b k f = some k := by
  simp [focus_step]

theorem focus_step_ne_some (t : String) (co : Option String) (b : String)
    (k n : Nat) (hbt : b ≠ t) :
    focus_step t co b k (some n) = some n := by
  simp [focus_step, hbt]

theorem focus_step_ne_none_checked (t b c : String) (k : Nat) (hbc : b = c) :
    focus_step t (some c) b k none = some k := by
  by_cases hbt : b = t <;> simp [focus_step, hbt, hbc]

theorem focus_step_ne_none_nomatch (t b : String) (co : Option String) (k : Nat)
    (hbt : b ≠ t) (hco : ∀ c, co = some c → b ≠ c) :
    focus_step t co b k none = none := by
  cases co with
  | none => simp [focus_step, hbt]
  | some c => simp [focus_step, hbt, hco c rfl]

theorem branch_focus_loop_absorb (t : String) (co : Option String) :
    ∀ (l : List String) (k n : Nat), t ∉ l →
      branch_focus_loop t co l k (some n) = some n := by
  intro l
  induction l with
  | nil => intro k n _; rfl
  | cons b rest ih =>
    intro k n ht
    have hbt : b ≠ t := fun h => ht (h ▸ List.mem_cons_self b rest)
    show branch_focus_loop t co rest (k + 1)
        (focus_step t co b (k + 1) (some n)) = some n
    rw [focus_step_ne_some t co b (k + 1) n hbt]
    exact ih (k + 1) n (fun h => ht (List.mem_cons_of_mem b h))

theorem branch_focus_loop_of_mem (t : String) (co : Option String) :
    ∀ (l : List String) (k : Nat) (f : Option Nat), t ∈ l →
      ∃ i, l[i]? = some t ∧ branch_focus_loop t co l k f = some (k + 1 + i) := by
  intro l
  induction l with
  | nil => intro k f h; exact absurd h (List.not_mem_nil t)
  | cons b rest ih =>
    intro k f hmem
    by_cases hbt : b = t
    · subst hbt
      by_cases hrest : b ∈ rest
      · obtain ⟨i, hi, hl⟩ := ih (k + 1) (focus_step b co b (k + 1) f) hrest
        refine ⟨i + 1, by simpa using hi, ?_⟩
        show branch_focus_loop b co rest (k + 1)
            (focus_step b co b (k + 1) f) = some (k + 1 + (i + 1))
        rw [hl]
        congr 1
        omega
      · refine ⟨0, by simp, ?_⟩
        show branch_focus_loop b co rest (k + 1)
            (focus_step b co b (k + 1) f) = some (k + 1 + 0)
        rw [focus_step_eq]
        rw [branch_focus_loop_absorb b co rest (k + 1) (k + 1) hrest]
    · have hrest : t ∈ rest := by
        rcases List.mem_cons.mp hmem with h | h
        · exact absurd h.symm hbt
        · exact h
      obtain ⟨i, hi, hl⟩ := ih (k + 1) (focus_step t co b (k + 1) f) hrest
      refine ⟨i + 1, by simpa using hi, ?_⟩
      show branch_focus_loop t co rest (k + 1)
          (focus_step t co b (k + 1) f) = some (k + 1 + (i + 1))
      rw [hl]
      congr 1
      omega

theorem branch_focus_loop_checkedout (t c : String) :
    ∀ (l : List String) (k : Nat), t ∉ l → c ∈ l →
      ∃ i, l[i]? = some c ∧
        branch_focus_loop t (some c) l k none = some (k + 1 + i) := by
  intro l
  induction l with
  | nil => intro k _ hc; exact absurd hc (List.not_mem_nil c)
  | cons b rest ih =>
    intro k ht hc
    have hbt : b ≠ t := fun h => ht (h ▸ List.mem_cons_self b rest)
    have ht2 : t ∉ rest := fun h => ht (List.mem_cons_of_mem b h)
    by_cases hbc : b = c
    · refine ⟨0, by simp [hbc], ?_⟩
      show branch_focus_loop t (some c) rest (k + 1)
          (focus_step t (some c) b (k + 1) none) = some (k + 1 + 0)
      rw [focus_step_ne_none_checked t b c (k + 1) hbc]
      rw [branch_focus_loop_absorb t (some c) rest (k + 1) (k + 1) ht2]
    · have hc2 : c ∈ rest := by
        rcases List.mem_cons.mp hc with h | h
        · exact absurd h.symm hbc
        · exact h
      obtain ⟨i, hi, hl⟩ := ih (k + 1) ht2 hc2
      refine ⟨i + 1, by simpa using hi, ?_⟩
      show branch_focus_loop t (some c) rest (k + 1)
          (focus_step t (some c) b (k + 1) none) = some (k + 1 + (i + 1))
      rw [focus_step_ne_none_nomatch t b (some c) (k + 1) hbt
        (by intro x hx; cases hx; exact hbc)]
      rw [hl]
      congr 1
      omega

theorem branch_focus_loop_no_match (t : String) (co : Option String) :
    ∀ (l : List String) (k : Nat), t ∉ l → (∀ c, co = some c → c ∉ l) →
      branch_focus_loop t co l k none = none := by
  intro l
  induction l with
  | nil => intro k _ _; rfl
  | cons b rest ih =>
    intro k ht hco
    have hbt : b ≠ t := fun h => ht (h ▸ List.mem_cons_self b rest)
    show branch_focus_loop t co rest (k + 1)
        (focus_step t co b (k + 1) none) = none
    rw [focus_step_ne_none_nomatch t b co (k + 1) hbt
      (fun c hc h => hco c hc (h ▸ List.mem_cons_self b rest))]
    exact ih (k + 1) (fun h => ht (List.mem_cons_of_mem b h))
      (fun c hc h => hco c hc (List.mem_cons_of_mem b h))

/-! Claim theorems. -/

/-- C1: for every raw proposal list, each summary built by summarize_mps
lists in `reviewers` the name of every reviewer with a non-pending vote
regardless of the vote value, has `reviewers` lexicographically sorted
regardless of input vote order, and has `approval_count` equal to the
number of non-pending votes whose value equals Approve. -/
theorem summarize_mps_reviewers_approvals (mps : List RawMP) (mp : RawMP)
    (s : MPSummary) (hmp : mp ∈ mps) (hs : summarize_mp mp = some s) :
    s ∈ summarize_mps mps ∧
    (∀ v ∈ mp.votes, v.is_pending = false → v.reviewer_name ∈ s.reviewers) ∧
    List.Sorted string_le s.reviewers ∧
    s.approval_count =
      (mp.votes.filter (fun v => !v.is_pending && (v.comment_vote == "Approve"))).length := by
  obtain ⟨g, hg⟩ : ∃ g, mp.git = some g := by
    cases h : mp.git with
    | none => rw [summarize_mp, h] at hs; cases hs
    | some g => exact ⟨g, rfl⟩
  have hsg : summarize_git_mp mp g = s := by
    simp only [summarize_mp, hg, Option.some.injEq] at hs
    exact hs
  subst hsg
  refine ⟨?_, ?_, ?_, ?_⟩
  · rw [summarize_mps, List.mem_insertionSort]
    exact List.mem_filterMap.mpr ⟨mp, hmp, by simp [summarize_mp, hg]⟩
  · intro v hv hpend
    show v.reviewer_name ∈ List.insertionSort string_le (collect_votes mp.votes).1
    rw [List.mem_insertionSort, collect_votes_fst]
    exact List.mem_map.mpr ⟨v, List.mem_filter.mpr ⟨hv, by simp [hpend]⟩, rfl⟩
  · show List.Sorted string_le (List.insertionSort string_le (collect_votes mp.votes).1)
    exact List.sorted_insertionSort string_le (collect_votes mp.votes).1
  · show (collect_votes mp.votes).2 = _
    exact collect_votes_snd mp.votes

/-- C1 witness: in the concrete batch [w_mp], the non-approving non-pending
reviewer carol appears in the summary reviewers, which equal the sorted
list, and the approval count is 1. -/
theorem summarize_mps_reviewers_approvals_witness :
    Vote.reviewer_name ⟨"carol", false, "Needs Fixing"⟩ ∈
      (summarize_git_mp w_mp w_git).reviewers :=
  (summarize_mps_reviewers_approvals [w_mp] w_mp (summarize_git_mp w_mp w_git)
      (by simp) rfl).2.1 ⟨"carol", false, "Needs Fixing"⟩ (by simp [w_mp]) rfl

/-- C2: for every raw proposal list, summarize_mps output is sorted by
date_created in non-increasing order, and two summaries with equal
date_created that appear in a given relative order in the unsorted summary
list appear in the same relative order in the output (stable sort). -/
theorem summarize_mps_sorted_stable (mps : List RawMP) :
    List.Sorted (fun a b : MPSummary => b.date_created ≤ a.date_created)
      (summarize_mps mps) ∧
    (∀ a b : MPSummary, a.date_created = b.date_created →
      [a, b].Sublist (mp_content mps) → [a, b].Sublist (summarize_mps mps)) := by
  constructor
  · exact List.sorted_insertionSort date_desc (mp_content mps)
  · intro a b hdate hsub
    exact List.pair_sublist_insertionSort (le_of_eq hdate.symm) hsub

/-- C2 witness: two concrete proposals with identical timestamps keep their
input order in the sorted output. -/
theorem summarize_mps_sorted_stable_witness :
    [summarize_git_mp w_mp w_git, summarize_git_mp w_mp2 w_git].Sublist
      (summarize_mps [w_mp, w_mp2]) :=
  (summarize_mps_sorted_stable [w_mp, w_mp2]).2
    (summarize_git_mp w_mp w_git) (summarize_git_mp w_mp2 w_git) rfl
    (List.Sublist.refl _)

/-- C3: build_commit_msg returns exactly the fixed template around its six
arguments, with no escaping or quoting, and on the concrete example from
the spec it yields the expected string. -/
theorem build_commit_msg_spec :
    (∀ author reviewers source_branch target_branch commit_message
        mp_web_link : String,
      build_commit_msg author reviewers source_branch target_branch
          commit_message mp_web_link =
        "Merge " ++ source_branch ++ " into " ++ target_branch ++
          " [a=" ++ author ++ "] [r=" ++ reviewers ++ "]" ++
          "\n\n" ++ commit_message ++ "\n\nMP: " ++ mp_web_link) ∧
    build_commit_msg "alice" "bob,carol" "feat" "main" "fix thing" "http://x/1" =
      "Merge feat into main [a=alice] [r=bob,carol]\n\nfix thing\n\nMP: http://x/1" :=
  ⟨fun _ _ _ _ _ _ => rfl, by decide⟩

/-- C4: when the chosen target branch equals the chosen source branch, the
flow reaches the rejected outcome with the user-visible same-branch error
and performs no git effect at all (no checkout, no merge). -/
theorem target_branch_chosen_same_branch (chosen_mp : MPSummary) (branch : String) :
    target_branch_chosen chosen_mp branch branch =
      MergeOutcome.rejected same_branch_error ∧
    outcome_effects (target_branch_chosen chosen_mp branch branch) = [] := by
  constructor
  · simp [target_branch_chosen]
  · simp [target_branch_chosen, outcome_effects]

/-- C5: when the chosen source branch differs from the chosen target branch,
the flow performs exactly the checkout of the target branch followed by the
no-fast-forward merge of the source branch with the constructed commit
message passed explicitly, and nothing else (in particular no push). -/
theorem target_branch_chosen_merge_contract (chosen_mp : MPSummary)
    (source_branch target_branch : String) (h : source_branch ≠ target_branch) :
    target_branch_chosen chosen_mp source_branch target_branch =
      MergeOutcome.merged
        [GitEffect.checkout target_branch,
         GitEffect.merge_no_ff source_branch
           (build_commit_msg chosen_mp.author
             (String.intercalate "," chosen_mp.reviewers)
             source_branch target_branch chosen_mp.commit_message chosen_mp.web)]
        (source_branch ++ " has been merged in to " ++ target_branch ++
          " \nChanges have _NOT_ been pushed") := by
  have h2 : target_branch ≠ source_branch := Ne.symm h
  simp [target_branch_chosen, h2]

/-- C5 witness: the merge contract at a concrete summary and branch pair. -/
theorem target_branch_chosen_merge_contract_witness :
    target_branch_chosen (summarize_git_mp w_mp w_git) "feat" "main" =
      MergeOutcome.merged
        [GitEffect.checkout "main",
         GitEffect.merge_no_ff "feat"
           (build_commit_msg (summarize_git_mp w_mp w_git).author
             (String.intercalate "," (summarize_git_mp w_mp w_git).reviewers)
             "feat" "main" (summarize_git_mp w_mp w_git).commit_message
             (summarize_git_mp w_mp w_git).web)]
        ("feat" ++ " has been merged in to " ++ "main" ++
          " \nChanges have _NOT_ been pushed") :=
  target_branch_chosen_merge_contract (summarize_git_mp w_mp w_git) "feat" "main"
    (by decide)

/-- C6 counterexample: with local branches [main, dev], a proposal target
branch feature absent from them, and dev checked out, the target-branch
picker focuses widget 3 (the dev button), not index 0 as the claim states:
the code of the target picker does fall back to the checked-out branch. -/
theorem target_branch_default_focus_cex :
    target_branch_default_focus ["main", "dev"] "feature" (some "dev") = 3 ∧
    target_branch_default_focus ["main", "dev"] "feature" (some "dev") ≠ 0 := by
  decide

/-- C6 amended: the target-branch picker focuses the widget of the chosen
proposal target branch when it is among the local branches (the buttons
start at widget index 2); when it is not, it falls back to the widget of
the currently checked-out branch when that is among the local branches,
and only when neither applies does the default focus stay at index 0. -/
theorem target_branch_default_focus_spec (local_branches : List String)
    (mp_target : String) (checkedout : Option String) :
    (mp_target ∈ local_branches →
       ∃ i, local_branches[i]? = some mp_target ∧
         target_branch_default_focus local_branches mp_target checkedout = i + 2) ∧
    (mp_target ∉ local_branches →
       ∀ c, checkedout = some c → c ∈ local_branches →
         ∃ i, local_branches[i]? = some c ∧
           target_branch_default_focus local_branches mp_target checkedout = i + 2) ∧
    (mp_target ∉ local_branches →
       (∀ c, checkedout = some c → c ∉ local_branches) →
       target_branch_default_focus local_branches mp_target checkedout = 0) := by
  refine ⟨?_, ?_, ?_⟩
  · intro hmem
    obtain ⟨i, hi, hl⟩ :=
      branch_focus_loop_of_mem mp_target checkedout local_branches 1 none hmem
    refine ⟨i, hi, ?_⟩
    simp only [target_branch_default_focus, hl]
    omega
  · intro hout c hc hcmem
    subst hc
    obtain ⟨i, hi, hl⟩ :=
      branch_focus_loop_checkedout mp_target c local_branches 1 hout hcmem
    refine ⟨i, hi, ?_⟩
    simp only [target_branch_default_focus, hl]
    omega
  · intro hout hco
    have hl := branch_focus_loop_no_match mp_target checkedout local_branches 1
      hout hco
    simp only [target_branch_default_focus, hl]

/-- C6 witness: the fallback to the checked-out branch at a concrete input
where the proposal target branch is not a local branch. -/
theorem target_branch_default_focus_spec_witness :
    ∃ i, (["main", "dev"] : List String)[i]? = some "dev" ∧
      target_branch_default_focus ["main", "dev"] "feature" (some "dev") = i + 2 :=
  (target_branch_default_focus_spec ["main", "dev"] "feature" (some "dev")).2.1
    (by decide) "dev" rfl (by decide)

/-- C7: summarize_all_mps still produces a summary for a proposal that is
not git-backed, with empty source and target repo fields and the branch
display names as branches; a git-backed proposal gets its branches through
_format_git_branch_name, which strips a leading refs/heads/ and passes
other names through unchanged. -/
theorem summarize_all_mps_repo_fields (mps : List RawMP) (mp : RawMP)
    (hmp : mp ∈ mps) :
    (mp.git = none →
       ∃ s ∈ summarize_all_mps mps,
         s.source_repo = "" ∧ s.target_repo = "" ∧
         s.source_branch = mp.source_branch_display_name ∧
         s.target_branch = mp.target_branch_display_name) ∧
    (∀ g, mp.git = some g →
       ∃ s ∈ summarize_all_mps mps,
         s.source_branch = _format_git_branch_name g.source_git_path ∧
         s.target_branch = _format_git_branch_name g.target_git_path) ∧
    _format_git_branch_name "refs/heads/feature-x" = "feature-x" ∧
    _format_git_branch_name "main" = "main" := by
  have hmem : summarize_all_mp mp ∈ summarize_all_mps mps := by
    rw [summarize_all_mps, List.mem_insertionSort]
    exact List.mem_map_of_mem summarize_all_mp hmp
  refine ⟨?_, ?_, by decide, by decide⟩
  · intro hg
    exact ⟨summarize_all_mp mp, hmem, by simp [summarize_all_mp, hg],
      by simp [summarize_all_mp, hg], by simp [summarize_all_mp, hg],
      by simp [summarize_all_mp, hg]⟩
  · intro g hg
    exact ⟨summarize_all_mp mp, hmem, by simp [summarize_all_mp, hg],
      by simp [summarize_all_mp, hg]⟩

/-- C7 witness: the non-git branch of the statement at a concrete batch
holding one non-git and one git proposal. -/
theorem summarize_all_mps_repo_fields_witness :
    ∃ s ∈ summarize_all_mps [w_mp_nogit, w_mp],
      s.source_repo = "" ∧ s.target_repo = "" ∧
      s.source_branch = w_mp_nogit.source_branch_display_name ∧
      s.target_branch = w_mp_nogit.target_branch_display_name :=
  (summarize_all_mps_repo_fields [w_mp_nogit, w_mp] w_mp_nogit (by simp)).1 rfl

/-- C8: picker construction fails with a construction error on an empty
option list, and when default_index is at least the number of options;
with a non-empty option list and default_index below the number of options
it succeeds and the initial focus index equals default_index, which is 0
when not supplied. -/
theorem picker_init_validation (options : List String) (title : Option String)
    (indicator : String) (default_index : Int) (line_count : Nat) :
    (options = [] →
       ∃ e, picker_init options title indicator default_index line_count =
         Except.error e) ∧
    (default_index ≥ (options.length : Int) →
       ∃ e, picker_init options title indicator default_index line_count =
         Except.error e) ∧
    (options ≠ [] → default_index < (options.length : Int) →
       picker_init options title indicator default_index line_count =
         Except.ok { options := options, title := title, indicator := indicator,
                     index := default_index, line_count := line_count }) ∧
    (options ≠ [] →
       ∃ st, picker_init_default options = Except.ok st ∧ st.index = 0) := by
  have hok : ∀ (ti : Option String) (ind : String) (lc : Nat) (d : Int),
      options ≠ [] → d < (options.length : Int) →
      picker_init options ti ind d lc =
        Except.ok { options := options, title := ti, indicator := ind,
                    index := d, line_count := lc } := by
    intro ti ind lc d hne hd
    have h0 : (options.length == 0) = false := by
      simp only [beq_eq_false_iff_ne, ne_eq, List.length_eq_zero]
      exact hne
    have h1 : ¬ d ≥ (options.length : Int) := by omega
    simp [picker_init, h0, h1]
  refine ⟨?_, ?_,
    fun hne hd => hok title indicator line_count default_index hne hd, ?_⟩
  · intro he
    subst he
    exact ⟨"options should not be an empty list", by simp [picker_init]⟩
  · intro hd
    by_cases h0 : options.length == 0
    · exact ⟨"options should not be an empty list", by simp [picker_init, h0]⟩
    · exact ⟨"default_index should be less than the length of options",
        by simp [picker_init, h0, hd]⟩
  · intro hne
    have hlen : (0 : Int) < (options.length : Int) := by
      have := List.length_pos.mpr hne
      omega
    exact ⟨{ options := options, title := none, indicator := "*",
             index := 0, line_count := 1 },
           hok none "*" 1 0 hne hlen, rfl⟩

/-- C8 witness: the validation behavior at concrete inputs, one per
conjunct. -/
theorem picker_init_validation_witness :
    (∃ e, picker_init [] none "*" 0 1 = Except.error e) ∧
    (∃ e, picker_init ["a"] none "*" 5 1 = Except.error e) ∧
    picker_init ["a", "b"] none "*" 1 1 =
      Except.ok { options := ["a", "b"], title := none, indicator := "*",
                  index := 1, line_count := 1 } ∧
    (∃ st, picker_init_default ["a"] = Except.ok st ∧ st.index = 0) :=
  ⟨(picker_init_validation [] none "*" 0 1).1 rfl,
   (picker_init_validation ["a"] none "*" 5 1).2.1 (by decide),
   (picker_init_validation ["a", "b"] none "*" 1 1).2.2.1 (by decide) (by decide),
   (picker_init_validation ["a"] none "*" 0 1).2.2.2 (by decide)⟩

/-- C9 counterexample: on a fetch returning zero proposals, lpshipit prints
the explanation and finishes with exit status 0, not a non-zero status as
the claim states. -/
theorem lpshipit_no_mps_exit_zero_cex :
    lpshipit_dispatch [] = FlowOutcome.exit_no_mps no_mps_message 0 [] ∧
    ¬ ∃ printed code effects,
        lpshipit_dispatch [] = FlowOutcome.exit_no_mps printed code effects ∧
        code ≠ 0 := by
  constructor
  · rfl
  · rintro ⟨p, c, e, he, hc⟩
    rw [show lpshipit_dispatch [] = FlowOutcome.exit_no_mps no_mps_message 0 []
      from rfl] at he
    cases he
    exact hc rfl

/-- C9 amended: whenever the summarizer yields no summaries (in particular
on a fetch returning zero proposals), both top-level flows print the
human-readable explanation, perform no git effect at all, and exit with
status zero (not non-zero). -/
theorem dispatch_no_mps_behavior (mps : List RawMP) :
    (summarize_mps mps = [] →
      lpshipit_dispatch mps = FlowOutcome.exit_no_mps no_mps_message 0 []) ∧
    (summarize_all_mps mps = [] →
      lpmpmessage_dispatch mps = FlowOutcome.exit_no_mps no_mps_message 0 []) := by
  constructor
  · intro h
    simp [lpshipit_dispatch, h]
  · intro h
    simp [lpmpmessage_dispatch, h]

/-- C9 witness: the amended behavior at the empty fetch result. -/
theorem dispatch_no_mps_behavior_witness :
    lpshipit_dispatch [] = FlowOutcome.exit_no_mps no_mps_message 0 [] ∧
    lpmpmessage_dispatch [] = FlowOutcome.exit_no_mps no_mps_message 0 [] :=
  ⟨(dispatch_no_mps_behavior []).1 rfl, (dispatch_no_mps_behavior []).2 rfl⟩

/-- C10: for a non-empty option list and a negative default_index, picker
construction succeeds without an error (only the upper bound is checked)
and the initial focus index equals the supplied negative value. -/
theorem picker_init_negative_index (options : List String) (title : Option String)
    (indicator : String) (default_index : Int) (line_count : Nat)
    (hne : options ≠ []) (hneg : default_index < 0) :
    picker_init options title indicator default_index line_count =
      Except.ok { options := options, title := title, indicator := indicator,
                  index := default_index, line_count := line_count } := by
  have h0 : (options.length == 0) = false := by
    simp only [beq_eq_false_iff_ne, ne_eq, List.length_eq_zero]
    exact hne
  have h1 : ¬ default_index ≥ (options.length : Int) := by omega
  simp [picker_init, h0, h1]

/-- C10 witness: the negative default_index -2 is accepted and kept. -/
theorem picker_init_negative_index_witness :
    picker_init ["a"] none "*" (-2) 1 =
      Except.ok { options := ["a"], title := none, indicator := "*",
                  index := -2, line_count := 1 } :=
  picker_init_negative_index ["a"] none "*" (-2) 1 (by decide) (by decide)
